import Mathlib

/-!
Shallow embedding of the request-ID correlation and logging pipeline of the
`ai_agent` repository (files `src/config/log.py`, `src/api/app.py`,
`src/api/chat.py`, `src/main.py`), together with theorems settling the
claims about it.

Conventions of the embedding:
* Python strings become Lean `String`s; numeric log levels become `Nat`.
* Loguru's default level table is reproduced in `loguru_level`.
* The execution-context-local correlation slot (`request_id_context`,
  defined in `config/context.py`, which is not among the provided sources)
  is modelled from the spec as `ContextVarSlot`.
* Wall-clock readings are modelled as `Int` milliseconds; the conversion
  `int(ptime * 1000)` of the source is folded into this choice of unit.
* Asynchronous orchestration (`await`, enqueued sink writers) is modelled
  by its sequential effect; cooperative interleaving of two requests is
  modelled explicitly by `runInterleaved` for the concurrency claim.
-/

namespace AiAgent

/-- Loguru's built-in level table (name to numeric severity), as consulted by
`logger.level(name)` in `src/config/log.py`; `none` models the `ValueError`
raised for an unregistered level name. -/
def loguru_level : String → Option Nat
  | "TRACE" => some 5
  | "DEBUG" => some 10
  | "INFO" => some 20
  | "SUCCESS" => some 25
  | "WARNING" => some 30
  | "ERROR" => some 40
  | "CRITICAL" => some 50
  | _ => none

/-- Modelled from the spec: `config/context.py` is not under `src/`, only its
importers are. Spec §4.1: the Correlation Context is an
execution-context-local slot of type string; `set(value)` installs `value`
as current, `get(default)` returns the current value or `default` when none
is set, and never fails. One `ContextVarSlot` value represents the slot as
seen by one logical request's execution context. -/
structure ContextVarSlot where
  value : Option String
deriving Repr, DecidableEq

/-- Spec §4.1: `set(value: string)` installs `value` as current for the
calling request-scoped execution. -/
def ContextVarSlot.set (_c : ContextVarSlot) (v : String) : ContextVarSlot :=
  ⟨some v⟩

/-- Spec §4.1: `get(default: string) -> string` returns the current value, or
`default` if none is set; it never fails. -/
def ContextVarSlot.get (c : ContextVarSlot) (default : String) : String :=
  c.value.getD default

/-- A timestamp with millisecond precision, the data rendered by the
`YYYY-MM-DD HH:mm:ss.SSS` time directive of `log_format`. -/
structure Timestamp where
  year : Nat
  month : Nat
  day : Nat
  hour : Nat
  minute : Nat
  second : Nat
  millisecond : Nat
deriving Repr, DecidableEq

/-- A loguru log record, with the fields that `log_format` and `_filter` in
`src/config/log.py` consult: time, level name and number, process and thread
ids, module name, function, line, message, and the `extra` mapping. -/
structure Record where
  time : Timestamp
  level : String
  levelNo : Nat
  process : Nat
  thread : Nat
  name : String
  function : String
  line : Nat
  message : String
  extra : List (String × String)
deriving Repr, DecidableEq

/-- `src/config/log.py`, function `_filter`: replaces the record's `extra`
mapping by a singleton `traceid` entry holding the current correlation
value (default `"miss_traceid"`), and returns `True`. The returned `Bool`
is the filter verdict loguru uses to admit or drop the record. -/
def _filter (ctx : ContextVarSlot) (record : Record) : Record × Bool :=
  ({ record with extra := [("traceid", ctx.get "miss_traceid")] }, true)

/-- Zero-pad the decimal rendering of `n` on the left to width `w`, as the
fixed-width time directives `YYYY`, `MM`, `DD`, `HH`, `mm`, `ss`, `SSS` do. -/
def padNum (w : Nat) (n : Nat) : String :=
  let s := toString n
  String.mk (List.replicate (w - s.length) '0') ++ s

/-- Render a timestamp as `YYYY-MM-DD HH:mm:ss.SSS`, the time directive of
`log_format` in `src/config/log.py`. -/
def formatTime (t : Timestamp) : String :=
  padNum 4 t.year ++ "-" ++ padNum 2 t.month ++ "-" ++ padNum 2 t.day ++ " " ++
  padNum 2 t.hour ++ ":" ++ padNum 2 t.minute ++ ":" ++ padNum 2 t.second ++
  "." ++ padNum 3 t.millisecond

/-- Python format alignment `^w`: center `s` in a field of width `w`, extra
space going to the right; used by the `level: ^8` directive. -/
def padCenter (s : String) (w : Nat) : String :=
  let pad := w - s.length
  let l := pad / 2
  String.mk (List.replicate l ' ') ++ s ++ String.mk (List.replicate (pad - l) ' ')

/-- Python format alignment `<w`: left-justify `s` in a field of width `w`
(spaces appended on the right); used by the `extra[traceid]: <32` directive. -/
def padAfter (s : String) (w : Nat) : String :=
  s ++ String.mk (List.replicate (w - s.length) ' ')

/-- The line produced by the `log_format` template of `src/config/log.py`
for a record (color markup tags carry no text and are omitted). Rendering
`extra[traceid]` raises a `KeyError` when the key is absent, modelled by
`none`. -/
def formatLine (r : Record) : Option String :=
  match List.lookup "traceid" r.extra with
  | none => none
  | some tr =>
    some ("| " ++ formatTime r.time ++ " | " ++ padCenter r.level 8 ++ " | " ++
      padAfter tr 32 ++ " | process [" ++ toString r.process ++ "]:" ++
      toString r.thread ++ " | " ++ r.name ++ ":" ++ r.function ++ ":" ++
      toString r.line ++ " - " ++ r.message ++ " |")

/-- A sink's destination: the console stream, or a daily file named
`dir/pre<YYYY-MM-DD>.log` (the date part is the loguru time directive in the
filename templates of `src/config/log.py`). -/
inductive SinkTarget where
  | stdout : SinkTarget
  | dailyFile (dir : String) (pre : String) : SinkTarget
deriving Repr, DecidableEq

/-- The one line-format template of `src/config/log.py` (`log_format`);
its rendering semantics is `FormatTemplate.render`. -/
inductive FormatTemplate where
  | log_format : FormatTemplate
deriving Repr, DecidableEq

/-- Rendering semantics of a format template: `log_format` renders a record
to the structured line of `formatLine`. -/
def FormatTemplate.render : FormatTemplate → Record → Option String
  | .log_format => formatLine

/-- One `logger.add(...)` registration from `setup_logging`: destination,
line format, minimum level, rotation/retention/compression policy, encoding,
and the enqueue/colorize flags. Every sink also carries the `_filter`
rendering filter (field `usesFilter`). -/
structure SinkConfig where
  target : SinkTarget
  format : FormatTemplate
  levelMin : Nat
  rotation : Option String
  retention : Option String
  compression : Option String
  encoding : Option String
  enqueue : Bool
  colorize : Bool
  usesFilter : Bool
deriving Repr, DecidableEq

instance : Inhabited SinkConfig :=
  ⟨⟨.stdout, .log_format, 0, none, none, none, none, false, false, false⟩⟩

/-- `Settings.LOG_ROTATION` in `src/config/log.py`. -/
def settings_LOG_ROTATION : String := "00:00"
/-- `Settings.LOG_RETENTION` in `src/config/log.py`. -/
def settings_LOG_RETENTION : String := "30 days"
/-- `Settings.LOG_COMPRESSION` in `src/config/log.py`. -/
def settings_LOG_COMPRESSION : String := "zip"
/-- `Settings.DEBUG` in `src/config/log.py`. -/
def settings_DEBUG : Bool := true

/-- Result of `setup_logging`: the filesystem's set of existing directories
after the call (modelled as a list), the registered sinks in registration
order, and the standard-library logger names rewired to `InterceptHandler`. -/
structure SetupResult where
  dirs : List String
  sinks : List SinkConfig
  bridgedLoggers : List String

/-- `src/config/log.py`, `async setup_logging()`: removes existing handlers,
registers the console sink (level DEBUG when `settings.DEBUG` else INFO,
colorized), creates `<base>/logs`, registers the general daily file sink at
level INFO and the error daily file sink at level ERROR with the shared
rotation, retention and compression policy, and rewires standard and
third-party logging through `InterceptHandler`. `base` stands for
`settings.BASE_DIR` and `dirs` for the directories existing beforehand;
`os.makedirs(..., exist_ok=True)` makes the log directory exist afterwards. -/
def setup_logging (base : String) (dirs : List String) : SetupResult :=
  let log_dir := base ++ "/logs"
  let consoleSink : SinkConfig :=
    { target := .stdout
      format := .log_format
      levelMin := (loguru_level (if settings_DEBUG then "DEBUG" else "INFO")).getD 0
      rotation := none
      retention := none
      compression := none
      encoding := none
      enqueue := true
      colorize := true
      usesFilter := true }
  let generalSink : SinkConfig :=
    { target := .dailyFile log_dir ""
      format := .log_format
      levelMin := (loguru_level "INFO").getD 0
      rotation := some settings_LOG_ROTATION
      retention := some settings_LOG_RETENTION
      compression := some settings_LOG_COMPRESSION
      encoding := some "utf-8"
      enqueue := true
      colorize := false
      usesFilter := true }
  let errorSink : SinkConfig :=
    { target := .dailyFile log_dir "error_"
      format := .log_format
      levelMin := (loguru_level "ERROR").getD 0
      rotation := some settings_LOG_ROTATION
      retention := some settings_LOG_RETENTION
      compression := some settings_LOG_COMPRESSION
      encoding := some "utf-8"
      enqueue := true
      colorize := false
      usesFilter := true }
  { dirs := log_dir :: dirs
    sinks := [consoleSink, generalSink, errorSink]
    bridgedLoggers :=
      ["uvicorn", "uvicorn.error", "uvicorn.access", "uvicorn.asgi",
       "fastapi", "fastapi.error"] }

/-- Whether sink `s` writes a record with numeric level `lvl` under
correlation context `ctx`: loguru delivers a record to a sink exactly when
the record's level reaches the sink's minimum level and the sink's filter
admits it (`_filter` is the filter of all three sinks). -/
def sinkWrites (s : SinkConfig) (ctx : ContextVarSlot) (r : Record) : Bool :=
  decide (s.levelMin ≤ r.levelNo) && (_filter ctx r).2

/-- A standard-library `logging.LogRecord`, with the fields
`InterceptHandler.emit` consults: the level name, the numeric level, and the
message. -/
structure StdRecord where
  levelname : String
  levelno : Nat
  message : String
deriving Repr, DecidableEq

/-- The level argument `InterceptHandler.emit` passes to `logger.opt(...).log`:
either a loguru level name or a raw numeric level. -/
inductive EmitLevel where
  | atName (n : String) : EmitLevel
  | atNo (n : Nat) : EmitLevel
deriving Repr, DecidableEq

/-- `src/config/log.py`, `InterceptHandler.emit`: tries
`logger.level(record.levelname).name` and falls back to `record.levelno` on
`ValueError`; the record is then re-emitted at the resulting level. Frame
walking only adjusts the reported call site and is not modelled. -/
def InterceptHandler.emit (record : StdRecord) : EmitLevel :=
  match loguru_level record.levelname with
  | some _ => .atName record.levelname
  | none => .atNo record.levelno

/-- The numeric severity loguru attaches to a re-emitted record: the table
value of a level name, or the raw number itself. -/
def EmitLevel.severity : EmitLevel → Nat
  | .atName n => (loguru_level n).getD 0
  | .atNo n => n

/-- Hexadecimal digit characters, lowercase, as produced by Python's
`%x`-style rendering used by `uuid.UUID.hex`. -/
def hexDigit (n : Nat) : Char :=
  if n < 10 then Char.ofNat (48 + n) else Char.ofNat (87 + n)

/-- `c` is one of `0`-`9` or `a`-`f`. -/
def isHexChar (c : Char) : Bool :=
  (48 ≤ c.toNat && c.toNat ≤ 57) || (97 ≤ c.toNat && c.toNat ≤ 102)

/-- The 32-character lowercase hexadecimal rendering of a 128-bit value,
most significant nibble first: `uuid.UUID.hex`. -/
def toHex32 (n : Nat) : String :=
  String.mk ((List.range 32).map (fun i => hexDigit (n / 16 ^ (31 - i) % 16)))

/-- `uuid.uuid4()` as a 128-bit integer, as a function of the 128 random
bits drawn from `os.urandom(16)`: the version nibble (bits 76-79) is forced
to `4` and the variant bits (62-63) to `10`. -/
def uuid4_int (randomBits : Nat) : Nat :=
  let b := randomBits % 2 ^ 128
  let b1 := b / 2 ^ 80 * 2 ^ 80 + 4 * 2 ^ 76 + b % 2 ^ 76
  b1 / 2 ^ 64 * 2 ^ 64 + 2 * 2 ^ 62 + b1 % 2 ^ 62

/-- `uuid.uuid4().hex` in `src/api/app.py`, as a function of the random
bits. -/
def uuid4_hex (randomBits : Nat) : String :=
  toHex32 (uuid4_int randomBits)

/-- `str(request.url)` decomposed: the scheme-and-authority part, the path,
and the query-fragment tail; Starlette renders the URL as their
concatenation, with the path a contiguous middle piece. -/
structure Url where
  base : String
  path : String
  tail : String
deriving Repr, DecidableEq

/-- `str(request.url)`. -/
def Url.str (u : Url) : String := u.base ++ u.path ++ u.tail

/-- An inbound request as `extra_process` consults it: the header mapping
(Starlette lowercases header names) and the URL. -/
structure Request where
  headers : List (String × String)
  url : Url
deriving Repr, DecidableEq

/-- The downstream response as `extra_process` consults it. -/
structure Response where
  status_code : Nat
deriving Repr, DecidableEq

/-- The downstream handler (`call_next`) abstracted by its observable
behaviour: the application log messages it emits during handling, in order,
and its outcome (a response, or a raised exception carried by `Except`). -/
structure Handler where
  msgs : List String
  result : Except String Response
deriving Repr

/-- One emitted log line of a request's handling: the message and the
`traceid` value that `_filter` injects into the record at emission time
(the current correlation value, default `"miss_traceid"`). -/
structure LogEntry where
  message : String
  traceid : String
deriving Repr, DecidableEq

/-- Emission of one log message under correlation context `ctx`: the
entry's `traceid` is what `_filter` writes into the record's `extra`. -/
def emitEntry (ctx : ContextVarSlot) (msg : String) : LogEntry :=
  { message := msg, traceid := ctx.get "miss_traceid" }

/-- The completion message of `extra_process` in `src/api/app.py`:
`f"process finished... process time [{int(ptime*1000)}ms]: {response.status_code}-{request.url}"`
with `ptimeMs` already in milliseconds. -/
def completionMsg (ptimeMs : Int) (response : Response) (request : Request) : String :=
  "process finished... process time [" ++ toString ptimeMs ++ "ms]: " ++
    toString response.status_code ++ "-" ++ request.url.str

/-- What running the middleware leaves behind: the correlation context after
handling, the log entries emitted during handling in order, and the
middleware's outcome. -/
structure MiddlewareRun where
  ctx : ContextVarSlot
  logs : List LogEntry
  result : Except String Response
deriving Repr

/-- `src/api/app.py`, middleware `extra_process`: reads header
`x-request-id`, falls back to `uuid.uuid4().hex` (random bits supplied as
`fresh`), installs the id in the correlation context, awaits `call_next`,
then logs the completion line with the elapsed time, status code and URL.
`start_time` and `end_time` are the two `time.time()` readings, in
milliseconds. The `await call_next(request)` is not wrapped in any
`try`/`finally`, so a raised exception propagates before the completion
log statement is reached. -/
def extra_process (start_time end_time : Int) (fresh : Nat)
    (request : Request) (call_next : Handler) (ctx : ContextVarSlot) :
    MiddlewareRun :=
  let request_id :=
    match List.lookup "x-request-id" request.headers with
    | some v => v
    | none => uuid4_hex fresh
  let ctx1 := ctx.set request_id
  let handlerLogs := call_next.msgs.map (emitEntry ctx1)
  match call_next.result with
  | .error e => { ctx := ctx1, logs := handlerLogs, result := .error e }
  | .ok response =>
    let ptime := end_time - start_time
    { ctx := ctx1
      logs := handlerLogs ++ [emitEntry ctx1 (completionMsg ptime response request)]
      result := .ok response }

/-- One observable step of a request-handling task, for the cooperative
interleaving model: install a correlation id in the task's
execution-context-local slot, or emit a log message (which reads the slot
through `_filter`). -/
inductive Instr where
  | setCtx (v : String) : Instr
  | emit (msg : String) : Instr
deriving Repr, DecidableEq

/-- Joint state of two request-handling tasks interleaved on one worker.
Spec §4.1/§5: the correlation slot is execution-context-local, so each task
sees its own copy (`ctxA`, `ctxB`) rather than one shared variable; `logs`
collects emissions in global order, tagged `true` for task A. -/
structure TwoTaskState where
  ctxA : ContextVarSlot
  ctxB : ContextVarSlot
  logs : List (Bool × LogEntry)
deriving Repr, DecidableEq

/-- Run two task programs under an arbitrary cooperative schedule: each
`Bool` in `sched` picks which task executes its next instruction (a pick
for an exhausted task is a no-op). A `setCtx` by one task only writes that
task's own slot; an `emit` reads the emitting task's own slot. -/
def runInterleaved : List Bool → List Instr → List Instr → TwoTaskState → TwoTaskState
  | [], _, _, s => s
  | true :: sched, [], pb, s => runInterleaved sched [] pb s
  | true :: sched, .setCtx v :: pa, pb, s =>
    runInterleaved sched pa pb { s with ctxA := s.ctxA.set v }
  | true :: sched, .emit m :: pa, pb, s =>
    runInterleaved sched pa pb { s with logs := s.logs ++ [(true, emitEntry s.ctxA m)] }
  | false :: sched, pa, [], s => runInterleaved sched pa [] s
  | false :: sched, pa, .setCtx v :: pb, s =>
    runInterleaved sched pa pb { s with ctxB := s.ctxB.set v }
  | false :: sched, pa, .emit m :: pb, s =>
    runInterleaved sched pa pb { s with logs := s.logs ++ [(false, emitEntry s.ctxB m)] }

/-- The observable program of one request's middleware-plus-handler, as
`extra_process` performs it: first install the request's correlation id,
then emit the messages logged during that request's handling. -/
def mkProg (id : String) (msgs : List String) : List Instr :=
  .setCtx id :: msgs.map .emit

/-- Initial joint state: no correlation value set in either task's context,
no log emitted. -/
def initTwoTask : TwoTaskState :=
  { ctxA := ⟨none⟩, ctxB := ⟨none⟩, logs := [] }

/-- A tagged log entry is correctly attributed when a task-A line carries
`idA` and a task-B line carries `idB`. -/
def tagOk (idA idB : String) (e : Bool × LogEntry) : Bool :=
  if e.1 then e.2.traceid == idA else e.2.traceid == idB

/-! ### Concrete sample data used by the witnesses -/

/-- A sample timestamp. -/
def sampleTime : Timestamp := ⟨2024, 5, 6, 7, 8, 9, 123⟩

/-- A sample record with a caller-bound extra field. -/
def sampleRecord : Record :=
  ⟨sampleTime, "INFO", 20, 1, 2, "api.app", "root", 12, "hello world", [("user", "u1")]⟩

/-- A sample request carrying an `x-request-id` header. -/
def reqWith : Request := ⟨[("x-request-id", "abc123")], ⟨"http://h:8000", "/", ""⟩⟩

/-- A sample request with no `x-request-id` header. -/
def reqNo : Request := ⟨[], ⟨"http://h:8000", "/", ""⟩⟩

/-- A sample downstream handler that logs once and returns 200. -/
def handOk : Handler := ⟨["hello world"], .ok ⟨200⟩⟩

/-- A sample downstream handler that raises. -/
def handRaise : Handler := ⟨[], .error "boom"⟩

/-! ### Helper lemmas -/

lemma length_toHex32 (n : Nat) : (toHex32 n).length = 32 := by
  simp [toHex32, String.length]

lemma isHexChar_hexDigit : ∀ n, n < 16 → isHexChar (hexDigit n) = true := by decide

lemma all_isHexChar_toHex32 (n : Nat) : ((toHex32 n).data.all isHexChar) = true := by
  rw [List.all_eq_true]
  intro c hc
  have hc' : c ∈ (List.range 32).map (fun i => hexDigit (n / 16 ^ (31 - i) % 16)) := hc
  rcases List.mem_map.1 hc' with ⟨i, _, rfl⟩
  exact isHexChar_hexDigit _ (Nat.mod_lt _ (by norm_num))

lemma length_mk_replicate (k : Nat) (c : Char) :
    (String.mk (List.replicate k c)).length = k := by
  simp [String.length]

lemma length_padCenter (s : String) (w : Nat) :
    (padCenter s w).length = max w s.length := by
  simp [padCenter, String.length_append, length_mk_replicate]
  omega

lemma length_padAfter (s : String) (w : Nat) :
    (padAfter s w).length = max w s.length := by
  simp [padAfter, String.length_append, length_mk_replicate]
  omega

lemma length_padNum (w n : Nat) :
    (padNum w n).length = max w (toString n).length := by
  simp [padNum, String.length_append, length_mk_replicate]
  omega

lemma length_toString_le (n : Nat) (h : n < 1000) : (toString n).length ≤ 3 :=
  Nat.repr_length n 3 (by norm_num) h

/-- A task program whose every instruction is an emission. -/
def emitsOnly (p : List Instr) : Prop := ∀ i ∈ p, ∃ m, i = Instr.emit m

/-- Invariant tying one task's remaining program to its context slot: the
task is done, or is about to install `id`, or has already installed `id`
and only emits from now on. -/
def taskInv (id : String) (ctx : ContextVarSlot) (p : List Instr) : Prop :=
  p = [] ∨ (∃ tl, p = Instr.setCtx id :: tl ∧ emitsOnly tl) ∨
    (ctx = ⟨some id⟩ ∧ emitsOnly p)

/-! ### Claims -/

/-- C10: `_filter` admits every record (verdict `true`) and replaces its
whole `extra` mapping with the single `traceid` entry holding the current
correlation value; every extra field the caller bound is discarded. -/
theorem claim_C10 (ctx : ContextVarSlot) (r : Record) :
    (_filter ctx r).2 = true ∧
    List.lookup "traceid" (_filter ctx r).1.extra = some (ctx.get "miss_traceid") ∧
    (∀ k, k ≠ "traceid" → List.lookup k (_filter ctx r).1.extra = none) ∧
    (_filter ctx r).1.extra.length = 1 ∧
    (_filter ctx r).1.message = r.message := by
  refine ⟨rfl, by simp [_filter], ?_, rfl, rfl⟩
  intro k hk
  have hb : (k == "traceid") = false := beq_eq_false_iff_ne.mpr hk
  simp [_filter, List.lookup, hb]

theorem claim_C10_witness :
    List.lookup "user" (_filter ⟨some "t0"⟩ sampleRecord).1.extra = none :=
  (claim_C10 ⟨some "t0"⟩ sampleRecord).2.2.1 "user" (by decide)

/-- C5: reading the correlation context never fails: when no value is set
in the current execution context the rendered `traceid` field is the
sentinel `"miss_traceid"`, and in every case the filter produces some
string for the `traceid` field. -/
theorem claim_C5 (ctx : ContextVarSlot) (r : Record) :
    (ctx.value = none →
      List.lookup "traceid" (_filter ctx r).1.extra = some "miss_traceid") ∧
    ∃ s, List.lookup "traceid" (_filter ctx r).1.extra = some s := by
  constructor
  · intro h
    simp [_filter, ContextVarSlot.get, h]
  · exact ⟨ctx.get "miss_traceid", by simp [_filter]⟩

theorem claim_C5_witness :
    List.lookup "traceid" (_filter ⟨none⟩ sampleRecord).1.extra = some "miss_traceid" :=
  (claim_C5 ⟨none⟩ sampleRecord).1 rfl

/-- C4: bridging a standard-library record never fails on level-name
resolution: an unrecognized level name falls back to re-emitting at the
record's raw numeric level, while a recognized name re-emits at the
pipeline level of that name. -/
theorem claim_C4 (record : StdRecord) :
    (loguru_level record.levelname = none →
      InterceptHandler.emit record = .atNo record.levelno ∧
      (InterceptHandler.emit record).severity = record.levelno) ∧
    (∀ l, loguru_level record.levelname = some l →
      InterceptHandler.emit record = .atName record.levelname ∧
      (InterceptHandler.emit record).severity = l) := by
  constructor
  · intro h
    simp [InterceptHandler.emit, h, EmitLevel.severity]
  · intro l h
    simp [InterceptHandler.emit, h, EmitLevel.severity]

theorem claim_C4_witness :
    InterceptHandler.emit ⟨"Level 25", 25, "m"⟩ = .atNo 25 ∧
    InterceptHandler.emit ⟨"WARNING", 30, "m"⟩ = .atName "WARNING" :=
  ⟨((claim_C4 ⟨"Level 25", 25, "m"⟩).1 rfl).1,
   ((claim_C4 ⟨"WARNING", 30, "m"⟩).2 30 rfl).1⟩

/-- C1: when the request carries header `x-request-id` with value `X`, the
middleware installs `X` in the correlation context and every log entry
emitted during the request's handling carries `X` in its traceid field. -/
theorem claim_C1 (X : String) (start_time end_time : Int) (fresh : Nat)
    (request : Request) (call_next : Handler) (ctx : ContextVarSlot)
    (h : List.lookup "x-request-id" request.headers = some X) :
    (extra_process start_time end_time fresh request call_next ctx).ctx =
      ContextVarSlot.mk (some X) ∧
    ((extra_process start_time end_time fresh request call_next ctx).logs.all
      fun e => e.traceid == X) = true := by
  simp only [extra_process, h]
  cases hr : call_next.result <;>
    simp [List.all_eq_true, emitEntry, ContextVarSlot.set, ContextVarSlot.get]

theorem claim_C1_witness :
    (extra_process 0 5 0 reqWith handOk ⟨none⟩).ctx = ContextVarSlot.mk (some "abc123") ∧
    ((extra_process 0 5 0 reqWith handOk ⟨none⟩).logs.all
      fun e => e.traceid == "abc123") = true :=
  claim_C1 "abc123" 0 5 0 reqWith handOk ⟨none⟩ rfl

/-- C2: when the request lacks the `x-request-id` header, the middleware
uses `uuid.uuid4().hex`, a 32-character hexadecimal identifier derived from
128 random bits; it installs it in the correlation context (before the
downstream handler's emissions, which all read it) and every log entry of
the request carries that same identifier. -/
theorem claim_C2 (start_time end_time : Int) (fresh : Nat)
    (request : Request) (call_next : Handler) (ctx : ContextVarSlot)
    (h : List.lookup "x-request-id" request.headers = none) :
    (uuid4_hex fresh).length = 32 ∧
    ((uuid4_hex fresh).data.all isHexChar) = true ∧
    (extra_process start_time end_time fresh request call_next ctx).ctx =
      ContextVarSlot.mk (some (uuid4_hex fresh)) ∧
    ((extra_process start_time end_time fresh request call_next ctx).logs.all
      fun e => e.traceid == uuid4_hex fresh) = true := by
  refine ⟨length_toHex32 _, all_isHexChar_toHex32 _, ?_, ?_⟩ <;>
  · simp only [extra_process, h]
    cases hr : call_next.result <;>
      simp [List.all_eq_true, emitEntry, ContextVarSlot.set, ContextVarSlot.get]

theorem claim_C2_witness :
    (uuid4_hex 0).length = 32 ∧
    ((uuid4_hex 0).data.all isHexChar) = true ∧
    (extra_process 0 5 0 reqNo handOk ⟨none⟩).ctx =
      ContextVarSlot.mk (some (uuid4_hex 0)) ∧
    ((extra_process 0 5 0 reqNo handOk ⟨none⟩).logs.all
      fun e => e.traceid == uuid4_hex 0) = true :=
  claim_C2 0 5 0 reqNo handOk ⟨none⟩ rfl

/-- C8 counterexample: with a downstream handler that raises, the source's
middleware (whose `await call_next(request)` is not wrapped in any
`try`/`finally`) emits no log line at all — in particular no completion
line — and the exception propagates, refuting the claim that the completion
line is emitted regardless of a raised exception. -/
theorem claim_C8_counterexample :
    (extra_process 0 5 0 reqWith handRaise ⟨none⟩).logs = [] ∧
    (extra_process 0 5 0 reqWith handRaise ⟨none⟩).result = .error "boom" :=
  ⟨rfl, rfl⟩

/-- C8 (amended): when the downstream handler raises, the middleware
propagates the exception and skips the completion log line: the emitted
entries are exactly the handler's own, with nothing appended. -/
theorem claim_C8_amended (start_time end_time : Int) (fresh : Nat)
    (request : Request) (call_next : Handler) (ctx : ContextVarSlot)
    (e : String) (h : call_next.result = .error e) :
    (extra_process start_time end_time fresh request call_next ctx).result = .error e ∧
    (extra_process start_time end_time fresh request call_next ctx).logs.length =
      call_next.msgs.length := by
  simp [extra_process, h]

/-- A sample error-level record. -/
def recErr : Record :=
  ⟨sampleTime, "ERROR", 40, 1, 2, "api.app", "root", 12, "bad", []⟩

/-- A sample info-level record. -/
def recInf : Record :=
  ⟨sampleTime, "INFO", 20, 1, 2, "api.app", "root", 12, "ok", []⟩

/-- C3: after `setup_logging` the log directory exists, and the two daily
file sinks route records by level: the general sink's minimum level is INFO
(20) and the error sink's is ERROR (40), with identical rotation, retention
and compression policy, so a record at ERROR or above is written to both
files while a record at INFO but below ERROR is written only to the general
file. -/
theorem claim_C3 (base : String) (dirs : List String) :
    (base ++ "/logs") ∈ (setup_logging base dirs).dirs ∧
    (setup_logging base dirs).sinks.length = 3 ∧
    ((setup_logging base dirs).sinks.getD 1 default).target =
      .dailyFile (base ++ "/logs") "" ∧
    ((setup_logging base dirs).sinks.getD 2 default).target =
      .dailyFile (base ++ "/logs") "error_" ∧
    ((setup_logging base dirs).sinks.getD 1 default).levelMin = 20 ∧
    ((setup_logging base dirs).sinks.getD 2 default).levelMin = 40 ∧
    ((setup_logging base dirs).sinks.getD 1 default).rotation =
      ((setup_logging base dirs).sinks.getD 2 default).rotation ∧
    ((setup_logging base dirs).sinks.getD 1 default).retention =
      ((setup_logging base dirs).sinks.getD 2 default).retention ∧
    ((setup_logging base dirs).sinks.getD 1 default).compression =
      ((setup_logging base dirs).sinks.getD 2 default).compression ∧
    (∀ ctx r, 40 ≤ r.levelNo →
      sinkWrites ((setup_logging base dirs).sinks.getD 1 default) ctx r = true ∧
      sinkWrites ((setup_logging base dirs).sinks.getD 2 default) ctx r = true) ∧
    (∀ ctx r, 20 ≤ r.levelNo → r.levelNo < 40 →
      sinkWrites ((setup_logging base dirs).sinks.getD 1 default) ctx r = true ∧
      sinkWrites ((setup_logging base dirs).sinks.getD 2 default) ctx r = false) := by
  refine ⟨List.mem_cons_self _ _, rfl, rfl, rfl, rfl, rfl, rfl, rfl, rfl, ?_, ?_⟩
  · intro ctx r h
    constructor <;> simp [setup_logging, sinkWrites, _filter, loguru_level] <;> omega
  · intro ctx r h1 h2
    constructor <;> simp [setup_logging, sinkWrites, _filter, loguru_level] <;> omega

theorem claim_C3_witness :
    sinkWrites ((setup_logging "b" []).sinks.getD 1 default) ⟨some "t0"⟩ recErr = true ∧
    sinkWrites ((setup_logging "b" []).sinks.getD 2 default) ⟨some "t0"⟩ recErr = true ∧
    sinkWrites ((setup_logging "b" []).sinks.getD 1 default) ⟨some "t0"⟩ recInf = true ∧
    sinkWrites ((setup_logging "b" []).sinks.getD 2 default) ⟨some "t0"⟩ recInf = false := by
  obtain ⟨-, -, -, -, -, -, -, -, -, hE, hI⟩ := claim_C3 "b" []
  exact ⟨(hE ⟨some "t0"⟩ recErr (by decide)).1, (hE ⟨some "t0"⟩ recErr (by decide)).2,
    (hI ⟨some "t0"⟩ recInf (by decide) (by decide)).1,
    (hI ⟨some "t0"⟩ recInf (by decide) (by decide)).2⟩

/-- C6: every sink registered by `setup_logging` carries the one
`log_format` template, whose rendering of a record is the fixed structured
line: millisecond-precision timestamp, level name center-padded to width 8,
correlation id left-justified and padded to width 32, `process [pid]:tid`,
`name:function:line`, and the message, joined by the specified separators. -/
theorem claim_C6 (base : String) (dirs : List String) (r : Record) (tr : String)
    (htr : List.lookup "traceid" r.extra = some tr)
    (hms : r.time.millisecond < 1000) :
    (∀ s ∈ (setup_logging base dirs).sinks, s.format = .log_format) ∧
    FormatTemplate.render .log_format = formatLine ∧
    ∃ lvl trp,
      formatLine r = some ("| " ++ formatTime r.time ++ " | " ++ lvl ++ " | " ++
        trp ++ " | process [" ++ toString r.process ++ "]:" ++ toString r.thread ++
        " | " ++ r.name ++ ":" ++ r.function ++ ":" ++ toString r.line ++ " - " ++
        r.message ++ " |") ∧
      (∃ a b, lvl = String.mk (List.replicate a ' ') ++ r.level ++
        String.mk (List.replicate b ' ') ∧ (b = a ∨ b = a + 1)) ∧
      lvl.length = max 8 r.level.length ∧
      (∃ k, trp = tr ++ String.mk (List.replicate k ' ')) ∧
      trp.length = max 32 tr.length ∧
      (∃ d, formatTime r.time = d ++ "." ++ padNum 3 r.time.millisecond ∧
        (padNum 3 r.time.millisecond).length = 3) := by
  constructor
  · intro s hs
    simp only [setup_logging, List.mem_cons, List.not_mem_nil, or_false] at hs
    rcases hs with h | h | h <;> subst h <;> rfl
  refine ⟨rfl, padCenter r.level 8, padAfter tr 32, ?_, ?_, ?_, ?_, ?_, ?_⟩
  · simp [formatLine, htr]
  · exact ⟨(8 - r.level.length) / 2,
      8 - r.level.length - (8 - r.level.length) / 2, rfl, by omega⟩
  · exact length_padCenter r.level 8
  · exact ⟨32 - tr.length, rfl⟩
  · exact length_padAfter tr 32
  · refine ⟨padNum 4 r.time.year ++ "-" ++ padNum 2 r.time.month ++ "-" ++
      padNum 2 r.time.day ++ " " ++ padNum 2 r.time.hour ++ ":" ++
      padNum 2 r.time.minute ++ ":" ++ padNum 2 r.time.second, rfl, ?_⟩
    have h3 := length_toString_le r.time.millisecond hms
    rw [length_padNum]
    omega

theorem claim_C6_witness :
    (∀ s ∈ (setup_logging "b" []).sinks, s.format = .log_format) ∧
    FormatTemplate.render .log_format = formatLine ∧
    ∃ lvl trp,
      formatLine ((_filter ⟨some "t0"⟩ sampleRecord).1) =
        some ("| " ++ formatTime sampleRecord.time ++ " | " ++ lvl ++ " | " ++
        trp ++ " | process [" ++ toString sampleRecord.process ++ "]:" ++
        toString sampleRecord.thread ++ " | " ++ sampleRecord.name ++ ":" ++
        sampleRecord.function ++ ":" ++ toString sampleRecord.line ++ " - " ++
        sampleRecord.message ++ " |") ∧
      (∃ a b, lvl = String.mk (List.replicate a ' ') ++ sampleRecord.level ++
        String.mk (List.replicate b ' ') ∧ (b = a ∨ b = a + 1)) ∧
      lvl.length = max 8 sampleRecord.level.length ∧
      (∃ k, trp = "t0" ++ String.mk (List.replicate k ' ')) ∧
      trp.length = max 32 ("t0" : String).length ∧
      (∃ d, formatTime sampleRecord.time = d ++ "." ++
        padNum 3 sampleRecord.time.millisecond ∧
        (padNum 3 sampleRecord.time.millisecond).length = 3) :=
  claim_C6 "b" [] ((_filter ⟨some "t0"⟩ sampleRecord).1) "t0" rfl (by decide)

/-- C7: when the downstream handler returns a response and the clock is
monotone across the request, the middleware emits exactly one completion
entry, appended after the handler's own entries; its message carries the
elapsed handling time in whole milliseconds (a value ≥ 0), the response
status code, and the request path (as part of the logged URL). -/
theorem claim_C7 (start_time end_time : Int) (fresh : Nat)
    (request : Request) (call_next : Handler) (ctx : ContextVarSlot)
    (response : Response) (hres : call_next.result = .ok response)
    (hclock : start_time ≤ end_time) :
    ∃ pre c,
      (extra_process start_time end_time fresh request call_next ctx).logs =
        pre ++ [c] ∧
      pre.length = call_next.msgs.length ∧
      c.message = completionMsg (end_time - start_time) response request ∧
      0 ≤ end_time - start_time ∧
      (∃ a b, c.message = a ++ toString response.status_code ++ b) ∧
      (∃ a b, c.message = a ++ request.url.path ++ b) ∧
      (extra_process start_time end_time fresh request call_next ctx).result =
        .ok response := by
  simp only [extra_process, hres]
  refine ⟨_, _, rfl, List.length_map _ _, rfl, by omega, ?_, ?_, trivial⟩
  · exact ⟨"process finished... process time [" ++ toString (end_time - start_time) ++
      "ms]: ", "-" ++ request.url.str,
      by simp [emitEntry, completionMsg, String.append_assoc]⟩
  · exact ⟨"process finished... process time [" ++ toString (end_time - start_time) ++
      "ms]: " ++ toString response.status_code ++ "-" ++ request.url.base,
      request.url.tail,
      by simp [emitEntry, completionMsg, Url.str, String.append_assoc]⟩

theorem claim_C7_witness :
    ∃ pre c,
      (extra_process 0 5 0 reqWith handOk ⟨none⟩).logs = pre ++ [c] ∧
      pre.length = handOk.msgs.length ∧
      c.message = completionMsg 5 ⟨200⟩ reqWith ∧
      (0 : Int) ≤ 5 - 0 ∧
      (∃ a b, c.message = a ++ toString (Response.mk 200).status_code ++ b) ∧
      (∃ a b, c.message = a ++ reqWith.url.path ++ b) ∧
      (extra_process 0 5 0 reqWith handOk ⟨none⟩).result = .ok ⟨200⟩ :=
  claim_C7 0 5 0 reqWith handOk ⟨none⟩ ⟨200⟩ rfl (by decide)

lemma runInterleaved_tagOk (idA idB : String) :
    ∀ (sched : List Bool) (pa pb : List Instr) (s : TwoTaskState),
      taskInv idA s.ctxA pa → taskInv idB s.ctxB pb →
      (∀ e ∈ s.logs, tagOk idA idB e = true) →
      ∀ e ∈ (runInterleaved sched pa pb s).logs, tagOk idA idB e = true := by
  intro sched
  induction sched with
  | nil =>
    intro pa pb s _ _ hlogs
    simpa [runInterleaved] using hlogs
  | cons hd tl ih =>
    intro pa pb s hA hB hlogs
    cases hd
    case true =>
      cases pa with
      | nil => simpa [runInterleaved] using ih [] pb s hA hB hlogs
      | cons i pa' =>
        cases i with
        | setCtx v =>
          have hv : v = idA ∧ emitsOnly pa' := by
            rcases hA with h | ⟨tl', htl, hem⟩ | ⟨_, hem⟩
            · exact absurd h (by simp)
            · simp only [List.cons.injEq, Instr.setCtx.injEq] at htl
              exact ⟨htl.1, htl.2 ▸ hem⟩
            · rcases hem _ (List.mem_cons_self _ _) with ⟨m, hm⟩
              simp at hm
          rcases hv with ⟨rfl, hem⟩
          refine ih pa' pb _ ?_ ?_ ?_
          · exact Or.inr (Or.inr ⟨rfl, hem⟩)
          · exact hB
          · exact hlogs
        | emit m =>
          have hctx : s.ctxA = ⟨some idA⟩ ∧ emitsOnly pa' := by
            rcases hA with h | ⟨tl', htl, _⟩ | ⟨hctx, hem⟩
            · exact absurd h (by simp)
            · exact absurd htl (by simp)
            · exact ⟨hctx, fun i hi => hem i (List.mem_cons_of_mem _ hi)⟩
          rcases hctx with ⟨hctx, hem⟩
          refine ih pa' pb _ ?_ hB ?_
          · exact Or.inr (Or.inr ⟨hctx, hem⟩)
          · intro e he
            rcases List.mem_append.1 he with he | he
            · exact hlogs e he
            · rcases List.mem_singleton.1 he with rfl
              simp [tagOk, emitEntry, hctx, ContextVarSlot.get]
    case false =>
      cases pb with
      | nil => simpa [runInterleaved] using ih pa [] s hA hB hlogs
      | cons i pb' =>
        cases i with
        | setCtx v =>
          have hv : v = idB ∧ emitsOnly pb' := by
            rcases hB with h | ⟨tl', htl, hem⟩ | ⟨_, hem⟩
            · exact absurd h (by simp)
            · simp only [List.cons.injEq, Instr.setCtx.injEq] at htl
              exact ⟨htl.1, htl.2 ▸ hem⟩
            · rcases hem _ (List.mem_cons_self _ _) with ⟨m, hm⟩
              simp at hm
          rcases hv with ⟨rfl, hem⟩
          refine ih pa pb' _ hA ?_ ?_
          · exact Or.inr (Or.inr ⟨rfl, hem⟩)
          · exact hlogs
        | emit m =>
          have hctx : s.ctxB = ⟨some idB⟩ ∧ emitsOnly pb' := by
            rcases hB with h | ⟨tl', htl, _⟩ | ⟨hctx, hem⟩
            · exact absurd h (by simp)
            · exact absurd htl (by simp)
            · exact ⟨hctx, fun i hi => hem i (List.mem_cons_of_mem _ hi)⟩
          rcases hctx with ⟨hctx, hem⟩
          refine ih pa pb' _ hA ?_ ?_
          · exact Or.inr (Or.inr ⟨hctx, hem⟩)
          · intro e he
            rcases List.mem_append.1 he with he | he
            · exact hlogs e he
            · rcases List.mem_singleton.1 he with rfl
              simp [tagOk, emitEntry, hctx, ContextVarSlot.get]

/-- C9: two requests whose handling is interleaved cooperatively on the
same worker never observe each other's correlation id: under every
schedule, every log entry of task A carries A's id and every entry of
task B carries B's id, because each task's correlation slot is
execution-context-local rather than shared. -/
theorem claim_C9 (sched : List Bool) (idA idB : String)
    (msgsA msgsB : List String) :
    ((runInterleaved sched (mkProg idA msgsA) (mkProg idB msgsB)
      initTwoTask).logs.all (tagOk idA idB)) = true := by
  rw [List.all_eq_true]
  refine runInterleaved_tagOk idA idB sched _ _ _ ?_ ?_ ?_
  · exact Or.inr (Or.inl ⟨msgsA.map .emit, rfl, fun i hi => by
      rcases List.mem_map.1 hi with ⟨m, _, rfl⟩; exact ⟨m, rfl⟩⟩)
  · exact Or.inr (Or.inl ⟨msgsB.map .emit, rfl, fun i hi => by
      rcases List.mem_map.1 hi with ⟨m, _, rfl⟩; exact ⟨m, rfl⟩⟩)
  · simp [initTwoTask]

theorem claim_C8_witness :
    (extra_process 0 5 0 reqWith ⟨["in handler"], .error "boom"⟩ ⟨none⟩).result =
      .error "boom" ∧
    (extra_process 0 5 0 reqWith ⟨["in handler"], .error "boom"⟩ ⟨none⟩).logs.length = 1 :=
  claim_C8_amended 0 5 0 reqWith ⟨["in handler"], .error "boom"⟩ ⟨none⟩ "boom" rfl

end AiAgent
